import Mathlib

/-!
Verification of the Template Grid pattern-matching engine and the
TradingView datafeed glue of the `advanced-charts` repository.

The engine components (Grid Encoder, Similarity Scorer, Decision Resolver,
Match Engine, Live Monitor, StreamBuffer) live in backend modules
(`patterns/template_grid.py`, `live_detection/live_detector.py`) that are
documented in the repository but whose source files are not present; they
are modelled here from the specification.  The datafeed (`datafeed.js`)
and the `APIClient` class (`api/client.js`) are present as source and are
embedded directly.
-/

namespace TemplateGrid

/-! ## Decision Resolver (§4.3) -/

/-- Trading decision produced by the Decision Resolver. -/
inductive Decision
  | ENTER_LONG
  | ENTER_SHORT
  | CONFLICT
  | NOT_TRADE
  deriving DecidableEq, Repr

/-- Mean of a list of rationals (`0` for the empty list, via division by zero). -/
def mean (l : List ℚ) : ℚ := l.sum / l.length

/-- Predicates of a group whose accuracy strictly exceeds the
strong-predicate threshold. -/
def strongOf (group : List ℚ) (t : ℚ) : List ℚ :=
  group.filter (fun a => decide (t < a))

/-- Number of strong predicates in a group. -/
def strongCount (group : List ℚ) (t : ℚ) : ℕ :=
  (strongOf group t).length

/-- Modelled from the spec: the Decision Resolver of
`patterns/template_grid.py` (absent from the sources).  Predicates 0..4 are
LONG-oriented, 5..9 SHORT-oriented; a predicate is strong when its accuracy
exceeds the threshold `t`; the four rules are evaluated in the spec's
order, and the confidence is the mean accuracy of the winning group's
strong predicates, or the mean of all accuracies for `NOT_TRADE` and
`CONFLICT`. -/
def resolve (accs : List ℚ) (t : ℚ) : Decision × ℚ :=
  if 3 ≤ strongCount (accs.take 5) t ∧
      strongCount (accs.drop 5) t < strongCount (accs.take 5) t then
    (.ENTER_LONG, mean (strongOf (accs.take 5) t))
  else if 3 ≤ strongCount (accs.drop 5) t ∧
      strongCount (accs.take 5) t < strongCount (accs.drop 5) t then
    (.ENTER_SHORT, mean (strongOf (accs.drop 5) t))
  else if 3 ≤ strongCount (accs.take 5) t ∧
      3 ≤ strongCount (accs.drop 5) t then
    (.CONFLICT, mean accs)
  else (.NOT_TRADE, mean accs)

/-! ## StreamBuffer (§3, §4.5) -/

/-- Modelled from the spec: appending one bar observation to a
StreamBuffer of capacity `cap` (the buffer lives in
`live_detection/live_detector.py`, absent from the sources).  The new
value is appended at the newest end and the oldest entries are evicted
while the buffer exceeds its capacity. -/
def push (cap : ℕ) (buf : List ℚ) (x : ℚ) : List ℚ :=
  if cap < (buf ++ [x]).length then
    (buf ++ [x]).drop ((buf ++ [x]).length - cap)
  else buf ++ [x]

/-- Buffer contents after a whole sequence of bar arrivals, starting empty. -/
def runBuffer (cap : ℕ) (xs : List ℚ) : List ℚ :=
  xs.foldl (push cap) []

/-! ## Grid Encoder (§4.1) -/

/-- Maximum of a list of rationals (`0` for the empty list; only used on
non-empty windows). -/
def listMax : List ℚ → ℚ
  | [] => 0
  | a :: as => as.foldl max a

/-- Minimum of a list of rationals (`0` for the empty list; only used on
non-empty windows). -/
def listMin : List ℚ → ℚ
  | [] => 0
  | a :: as => as.foldl min a

/-- Modelled from the spec: the per-observation grid row of the Grid
Encoder of `patterns/template_grid.py` (absent from the sources).  The
value is linearly mapped within `[lo, hi]` to a row in `[0, m-1]`, with the
highest price at row `0` and the lowest at row `m-1`; a flat window maps
every position to the middle row `⌊(m-1)/2⌋`. -/
def picRow (m : ℕ) (lo hi p : ℚ) : ℕ :=
  if hi = lo then (m - 1) / 2
  else (((hi - p) / (hi - lo)) * ((m - 1 : ℕ) : ℚ)).floor.toNat

/-- Modelled from the spec: the PIC of a window, one row index per
observation. -/
def pic (window : List ℚ) (m : ℕ) : List ℕ :=
  window.map (picRow m (listMin window) (listMax window))

/-! ## Similarity Scorer (§4.2) -/

/-- Dot product of two equal-length flattened vectors. -/
def dot (v w : List ℝ) : ℝ :=
  (List.zipWith (fun a b => a * b) v w).sum

/-- Euclidean magnitude of a flattened vector. -/
noncomputable def mag (v : List ℝ) : ℝ :=
  Real.sqrt (dot v v)

/-- Modelled from the spec: the Similarity Scorer of
`patterns/template_grid.py` (absent from the sources).  Cosine similarity
between the flattened indicator vector and the flattened template weight
vector, rescaled from `[-1, 1]` to `[0, 100]`; if either vector has zero
magnitude the similarity is `0`. -/
noncomputable def similarity (v w : List ℝ) : ℝ :=
  if mag v = 0 ∨ mag w = 0 then 0
  else (dot v w / (mag v * mag w) + 1) * 50

/-! ## Match Engine (§4.4) -/

/-- Scored candidate template: identifier, lifetime P&L, and the
similarity score its weight matrix obtained against the current window
(§4.2). -/
structure Candidate where
  id : ℕ
  total_pnl : ℚ
  score : ℚ
  deriving DecidableEq, Repr

/-- Modelled from the spec: the Match Engine's preference order — higher
similarity score first, exact ties broken by higher `total_pnl`, then by
lower template identifier. -/
def beats (a b : Candidate) : Bool :=
  decide (b.score < a.score) ||
    (decide (a.score = b.score) &&
      (decide (b.total_pnl < a.total_pnl) ||
        (decide (a.total_pnl = b.total_pnl) && decide (a.id < b.id))))

/-- Candidates at or above the minimum-similarity threshold; the rest are
discarded. -/
def survivors (minSim : ℚ) (cs : List Candidate) : List Candidate :=
  cs.filter (fun c => decide (minSim ≤ c.score))

/-- One selection step: keep the incumbent unless the new candidate beats
it. -/
def pickStep (acc : Option Candidate) (c : Candidate) : Option Candidate :=
  match acc with
  | none => some c
  | some b => if beats c b then some c else some b

/-- Single pass keeping the preferred candidate seen so far. -/
def pickBest (cs : List Candidate) : Option Candidate :=
  cs.foldl pickStep none

/-- Specification-side preference preorder: `pref a b` holds when `a` is
at least as preferred as `b` under the Match Engine's tie-breaking order
(higher score, then higher `total_pnl`, then lower identifier). -/
def pref (a b : Candidate) : Prop :=
  b.score < a.score ∨
    (a.score = b.score ∧
      (b.total_pnl < a.total_pnl ∨
        (a.total_pnl = b.total_pnl ∧ a.id ≤ b.id)))

/-- Modelled from the spec: the Match Engine of
`patterns/template_grid.py` (absent from the sources) — discard candidates
scoring below the minimum-similarity threshold, then select the best
survivor under `beats`; no survivor means no Match, which is a normal
outcome. -/
def bestMatch (minSim : ℚ) (cs : List Candidate) : Option Candidate :=
  pickBest (survivors minSim cs)

/-! ## Live Monitor observer dispatch (§4.5) -/

/-- Modelled from the spec: one isolated observer-callback invocation of
`live_detection/live_detector.py` (absent from the sources) — the callback
either succeeds or raises, and a raised error is caught and recorded, never
propagated. -/
def runIsolated {μ ε : Type} (f : μ → Except ε Unit) (m : μ) : Option ε :=
  match f m with
  | .ok _ => none
  | .error e => some e

/-- Dispatch of one Match to every registered observer in registration
order, each invocation isolated. -/
def dispatchOne {μ ε : Type} (obs : List (μ → Except ε Unit)) (m : μ) :
    List (Option ε) :=
  obs.map (fun f => runIsolated f m)

/-- Observable state of the Live Monitor: the per-Match dispatch records
and the number of Matches processed. -/
structure MonitorState (ε : Type) where
  dispatched : List (List (Option ε))
  barsProcessed : ℕ
  deriving Repr

/-- Processing one Match: dispatch it to all observers and count it. -/
def stepBar {μ ε : Type} (obs : List (μ → Except ε Unit))
    (s : MonitorState ε) (m : μ) : MonitorState ε :=
  { dispatched := s.dispatched ++ [dispatchOne obs m]
    barsProcessed := s.barsProcessed + 1 }

/-- Running the Live Monitor's dispatch loop over a sequence of Matches. -/
def runMonitor {μ ε : Type} (obs : List (μ → Except ε Unit)) (ms : List μ) :
    MonitorState ε :=
  ms.foldl (stepBar obs) ⟨[], 0⟩

end TemplateGrid

namespace Datafeed

/-- Names of the methods defined on the `APIClient` class of
`api/client.js` (the whole class body; the module exports
`new APIClient()`). -/
def apiClientMethods : List String :=
  ["constructor", "getConfig", "getSymbolInfo", "getHistory", "getMarks",
   "getTimescaleMarks", "createReplaySession", "getReplaySessions",
   "getReplaySession", "updateReplaySession", "deleteReplaySession",
   "getReplayBars", "advanceReplay", "resetReplay", "scanForPatterns",
   "getPatterns", "generateSignals", "getSignals", "getPatternTypes",
   "healthCheck"]

/-- The datafeed's `searchSymbols` from `datafeed.js`: it awaits
`apiClient.searchSymbols(userInput, symbolType, exchange)` and passes the
result to `onResultReadyCallback`; if that call throws — in particular
when the method does not exist on the client — the catch branch passes
`[]` instead.  The returned list holds the argument of each
`onResultReadyCallback` invocation, in order; `api` supplies the value a
`searchSymbols` client method would produce if it existed. -/
def searchSymbols {α : Type} (api : String → String → String → List α)
    (userInput exchange symbolType : String) : List (List α) :=
  if "searchSymbols" ∈ apiClientMethods then
    [api userInput symbolType exchange]
  else [[]]

/-- One TradingView bar as built by `getBars` in `datafeed.js`. -/
structure Bar where
  time : ℚ
  open_ : ℚ
  high : ℚ
  low : ℚ
  close : ℚ
  volume : ℚ
  deriving DecidableEq, Repr, Inhabited

/-- A history response from `GET /api/v1/history` as consumed by
`getBars`: status field `s` and the parallel arrays `t,o,h,l,c,v`. -/
structure HistoryResponse where
  s : String
  t : List ℚ
  o : List ℚ
  h : List ℚ
  l : List ℚ
  c : List ℚ
  v : List ℚ

/-- Which of its two callbacks `getBars` invokes, and with what. -/
inductive GetBarsOutcome
  | history (bars : List Bar) (noData : Bool)
  | err (msg : String)
  deriving DecidableEq, Repr

/-- The bar array built by `getBars`'s conversion loop: one bar per index
of `t`, with `time = t[i] * 1000` and the other fields read from the
parallel arrays. -/
def barsOf (r : HistoryResponse) : List Bar :=
  (List.range r.t.length).map fun i =>
    { time := r.t.getD i 0 * 1000
      open_ := r.o.getD i 0
      high := r.h.getD i 0
      low := r.l.getD i 0
      close := r.c.getD i 0
      volume := r.v.getD i 0 }

/-- The datafeed's `getBars` from `datafeed.js`, on a successfully fetched
history response: `s = "no_data"` yields `onHistoryCallback([], noData
true)`; any other `s ≠ "ok"` yields `onErrorCallback("Data fetch error")`;
otherwise the converted bars go to `onHistoryCallback` with `noData`
false. -/
def getBars (r : HistoryResponse) : GetBarsOutcome :=
  if r.s = "no_data" then .history [] true
  else if r.s ≠ "ok" then .err "Data fetch error"
  else .history (barsOf r) false

end Datafeed

namespace TemplateGrid

/-! ## Lemmas about the StreamBuffer -/

lemma push_eq_drop (cap : ℕ) (b : List ℚ) (x : ℚ) :
    push cap b x = (b ++ [x]).drop ((b.length + 1) - cap) := by
  unfold push
  split_ifs with h
  · simp
  · simp only [List.length_append, List.length_singleton] at h
    have h0 : b.length + 1 - cap = 0 := by omega
    simp [h0]

lemma push_length_le (cap : ℕ) (b : List ℚ) (x : ℚ) :
    (push cap b x).length ≤ cap := by
  unfold push
  split_ifs with h
  · simp at h ⊢; omega
  · simp at h ⊢; omega

lemma foldl_push_eq (cap : ℕ) (xs : List ℚ) :
    ∀ b : List ℚ, b.length ≤ cap →
      xs.foldl (push cap) b = (b ++ xs).drop ((b ++ xs).length - cap) := by
  induction xs with
  | nil =>
      intro b hb
      have h0 : b.length - cap = 0 := by omega
      simp [h0]
  | cons x xs ih =>
      intro b hb
      have hstep : (x :: xs).foldl (push cap) b = xs.foldl (push cap) (push cap b x) := rfl
      rw [hstep, ih _ (push_length_le cap b x), push_eq_drop]
      have hk : (b.length + 1) - cap ≤ (b ++ [x]).length := by
        simp only [List.length_append, List.length_singleton]
        omega
      have hA : (b ++ [x]).drop ((b.length + 1) - cap) ++ xs
          = (b ++ x :: xs).drop ((b.length + 1) - cap) := by
        rw [← List.drop_append_of_le_length hk]
        simp
      rw [hA, List.drop_drop]
      congr 1
      simp only [List.length_drop, List.length_append, List.length_cons]
      omega

end TemplateGrid

/-- C6: after any sequence of bar arrivals appended to a StreamBuffer of
capacity `cap`, the buffer's length never exceeds `cap`, and the buffer
holds exactly the most recent arrivals in arrival order — the entries
evicted are precisely the oldest ones (FIFO). -/
theorem streamBuffer_capacity_fifo (cap : ℕ) (xs : List ℚ) :
    (TemplateGrid.runBuffer cap xs).length ≤ cap ∧
    TemplateGrid.runBuffer cap xs = xs.drop (xs.length - cap) := by
  have h : TemplateGrid.runBuffer cap xs = xs.drop (xs.length - cap) := by
    have := TemplateGrid.foldl_push_eq cap xs [] (by simp)
    simpa [TemplateGrid.runBuffer] using this
  refine ⟨?_, h⟩
  rw [h]
  simp only [List.length_drop]
  omega

/-- C3: the Decision Resolver returns `ENTER_LONG` iff at least 3 of the
first five predicate accuracies exceed the threshold and the strong-LONG
count strictly exceeds the strong-SHORT count; `ENTER_SHORT`
symmetrically; `CONFLICT` iff both groups have at least 3 strong
predicates and neither count exceeds the other; and `NOT_TRADE`
otherwise.  In particular, with threshold 60,
`[85,82,79,70,65, 20,22,25,18,21]` yields `ENTER_LONG` and
`[85,82,79,20,18, 80,77,74,22,19]` yields `CONFLICT`. -/
theorem resolver_decision_rule (accs : List ℚ) (t : ℚ) (hlen : accs.length = 10) :
    ((TemplateGrid.resolve accs t).1 = TemplateGrid.Decision.ENTER_LONG ↔
      3 ≤ TemplateGrid.strongCount (accs.take 5) t ∧
        TemplateGrid.strongCount (accs.drop 5) t
          < TemplateGrid.strongCount (accs.take 5) t) ∧
    ((TemplateGrid.resolve accs t).1 = TemplateGrid.Decision.ENTER_SHORT ↔
      3 ≤ TemplateGrid.strongCount (accs.drop 5) t ∧
        TemplateGrid.strongCount (accs.take 5) t
          < TemplateGrid.strongCount (accs.drop 5) t) ∧
    ((TemplateGrid.resolve accs t).1 = TemplateGrid.Decision.CONFLICT ↔
      3 ≤ TemplateGrid.strongCount (accs.take 5) t ∧
        3 ≤ TemplateGrid.strongCount (accs.drop 5) t ∧
        TemplateGrid.strongCount (accs.take 5) t
          = TemplateGrid.strongCount (accs.drop 5) t) ∧
    ((TemplateGrid.resolve accs t).1 = TemplateGrid.Decision.NOT_TRADE ↔
      ¬(3 ≤ TemplateGrid.strongCount (accs.take 5) t ∧
          TemplateGrid.strongCount (accs.drop 5) t
            < TemplateGrid.strongCount (accs.take 5) t) ∧
      ¬(3 ≤ TemplateGrid.strongCount (accs.drop 5) t ∧
          TemplateGrid.strongCount (accs.take 5) t
            < TemplateGrid.strongCount (accs.drop 5) t) ∧
      ¬(3 ≤ TemplateGrid.strongCount (accs.take 5) t ∧
          3 ≤ TemplateGrid.strongCount (accs.drop 5) t)) ∧
    (TemplateGrid.resolve [85, 82, 79, 70, 65, 20, 22, 25, 18, 21] 60).1 =
      TemplateGrid.Decision.ENTER_LONG ∧
    (TemplateGrid.resolve [85, 82, 79, 20, 18, 80, 77, 74, 22, 19] 60).1 =
      TemplateGrid.Decision.CONFLICT := by
  refine ⟨?_, ?_, ?_, ?_, by decide, by decide⟩ <;>
    · simp only [TemplateGrid.resolve]
      split_ifs with h1 h2 h3 <;> simp <;> omega

/-- Witness for C3: the decision rule instantiated at the spec's first
example list, whose length is 10, yields `ENTER_LONG`. -/
theorem resolver_decision_rule_witness :
    ([85, 82, 79, 70, 65, 20, 22, 25, 18, 21] : List ℚ).length = 10 ∧
    (TemplateGrid.resolve [85, 82, 79, 70, 65, 20, 22, 25, 18, 21] 60).1 =
      TemplateGrid.Decision.ENTER_LONG :=
  ⟨by decide,
   (resolver_decision_rule [85, 82, 79, 70, 65, 20, 22, 25, 18, 21] 60
      (by decide)).2.2.2.2.1⟩

/-- C4: the confidence accompanying the decision is the mean accuracy of
the winning group's strong predicates for `ENTER_LONG` and `ENTER_SHORT`,
and the mean of all 10 predicate accuracies for `NOT_TRADE` and
`CONFLICT`. -/
theorem resolver_confidence (accs : List ℚ) (t : ℚ) (hlen : accs.length = 10) :
    ((TemplateGrid.resolve accs t).1 = TemplateGrid.Decision.ENTER_LONG →
      (TemplateGrid.resolve accs t).2 =
        TemplateGrid.mean (TemplateGrid.strongOf (accs.take 5) t)) ∧
    ((TemplateGrid.resolve accs t).1 = TemplateGrid.Decision.ENTER_SHORT →
      (TemplateGrid.resolve accs t).2 =
        TemplateGrid.mean (TemplateGrid.strongOf (accs.drop 5) t)) ∧
    ((TemplateGrid.resolve accs t).1 = TemplateGrid.Decision.NOT_TRADE ∨
        (TemplateGrid.resolve accs t).1 = TemplateGrid.Decision.CONFLICT →
      (TemplateGrid.resolve accs t).2 = TemplateGrid.mean accs) := by
  refine ⟨?_, ?_, ?_⟩ <;>
    · simp only [TemplateGrid.resolve]
      split_ifs <;> simp

/-- Witness for C4: at the spec's first example (length 10, decision
`ENTER_LONG`), the confidence equals the mean of the five strong LONG
accuracies. -/
theorem resolver_confidence_witness :
    ([85, 82, 79, 70, 65, 20, 22, 25, 18, 21] : List ℚ).length = 10 ∧
    (TemplateGrid.resolve [85, 82, 79, 70, 65, 20, 22, 25, 18, 21] 60).2 =
      TemplateGrid.mean
        (TemplateGrid.strongOf
          (([85, 82, 79, 70, 65, 20, 22, 25, 18, 21] : List ℚ).take 5) 60) :=
  ⟨by decide,
   (resolver_confidence [85, 82, 79, 70, 65, 20, 22, 25, 18, 21] 60
      (by decide)).1 (by decide)⟩

namespace TemplateGrid

/-! ## Lemmas about the Match Engine's selection -/

lemma pref_refl (a : Candidate) : pref a a :=
  Or.inr ⟨rfl, Or.inr ⟨rfl, le_refl _⟩⟩

lemma pref_trans {a b c : Candidate} (h1 : pref a b) (h2 : pref b c) :
    pref a c := by
  rcases h1 with h1 | ⟨e1, h1⟩ <;> rcases h2 with h2 | ⟨e2, h2⟩
  · left; linarith
  · left; linarith
  · left; linarith
  · right
    refine ⟨by linarith, ?_⟩
    rcases h1 with h1 | ⟨p1, i1⟩ <;> rcases h2 with h2 | ⟨p2, i2⟩
    · left; linarith
    · left; linarith
    · left; linarith
    · right; exact ⟨by linarith, by omega⟩

lemma pref_total (a b : Candidate) : pref a b ∨ pref b a := by
  rcases lt_trichotomy b.score a.score with h | h | h
  · exact Or.inl (Or.inl h)
  · rcases lt_trichotomy b.total_pnl a.total_pnl with h' | h' | h'
    · exact Or.inl (Or.inr ⟨h.symm, Or.inl h'⟩)
    · by_cases hid : a.id ≤ b.id
      · exact Or.inl (Or.inr ⟨h.symm, Or.inr ⟨h'.symm, hid⟩⟩)
      · exact Or.inr (Or.inr ⟨h, Or.inr ⟨h', by omega⟩⟩)
    · exact Or.inr (Or.inr ⟨h, Or.inl h'⟩)
  · exact Or.inr (Or.inl h)

lemma beats_eq_true_iff (a b : Candidate) :
    beats a b = true ↔ ¬ pref b a := by
  simp only [beats, pref, Bool.or_eq_true, Bool.and_eq_true, decide_eq_true_eq]
  constructor
  · rintro (h | ⟨e, h | ⟨ep, hid⟩⟩) hc <;>
      rcases hc with hc | ⟨ec, hc | ⟨ecp, hcid⟩⟩ <;>
      first | omega | linarith
  · intro h
    rcases lt_trichotomy a.score b.score with hs | hs | hs
    · exact absurd (Or.inl hs) h
    · rcases lt_trichotomy a.total_pnl b.total_pnl with hp | hp | hp
      · exact absurd (Or.inr ⟨hs.symm, Or.inl hp⟩) h
      · by_cases hid : a.id < b.id
        · exact Or.inr ⟨hs, Or.inr ⟨hp, hid⟩⟩
        · exact absurd (Or.inr ⟨hs.symm, Or.inr ⟨hp.symm, by omega⟩⟩) h
      · exact Or.inr ⟨hs, Or.inl hp⟩
    · exact Or.inl hs

lemma beats_eq_false_iff (a b : Candidate) :
    beats a b = false ↔ pref b a := by
  rw [Bool.eq_false_iff, Ne, beats_eq_true_iff, not_not]

lemma foldl_pick_spec (cs : List Candidate) :
    ∀ b : Candidate, ∃ c, cs.foldl pickStep (some b) = some c ∧
      (c = b ∨ c ∈ cs) ∧ pref c b ∧ ∀ c' ∈ cs, pref c c' := by
  induction cs with
  | nil =>
      intro b
      exact ⟨b, rfl, Or.inl rfl, pref_refl b, by simp⟩
  | cons x cs ih =>
      intro b
      by_cases h : beats x b = true
      · obtain ⟨c, hc, hmem, hpref, hall⟩ := ih x
        have hx : pref x b := by
          rcases pref_total x b with h' | h'
          · exact h'
          · exact absurd h' ((beats_eq_true_iff x b).mp h)
        refine ⟨c, ?_, ?_, pref_trans hpref hx, ?_⟩
        · simpa [pickStep, h] using hc
        · rcases hmem with rfl | hmem
          · exact Or.inr (List.mem_cons_self _ _)
          · exact Or.inr (List.mem_cons_of_mem _ hmem)
        · intro c' hc'
          rcases List.mem_cons.mp hc' with rfl | hmem'
          · exact hpref
          · exact hall _ hmem'
      · obtain ⟨c, hc, hmem, hpref, hall⟩ := ih b
        have hx : pref b x := (beats_eq_false_iff x b).mp (by
          cases hb : beats x b
          · rfl
          · exact absurd hb h)
        refine ⟨c, ?_, ?_, hpref, ?_⟩
        · simpa [pickStep, h] using hc
        · rcases hmem with rfl | hmem
          · exact Or.inl rfl
          · exact Or.inr (List.mem_cons_of_mem _ hmem)
        · intro c' hc'
          rcases List.mem_cons.mp hc' with rfl | hmem'
          · exact pref_trans hpref hx
          · exact hall _ hmem'

lemma pickBest_spec (cs : List Candidate) :
    (pickBest cs = none ↔ cs = []) ∧
    ∀ c, pickBest cs = some c → c ∈ cs ∧ ∀ c' ∈ cs, pref c c' := by
  cases cs with
  | nil => simp [pickBest]
  | cons x cs =>
      obtain ⟨c, hc, hmem, hpref, hall⟩ := foldl_pick_spec cs x
      have hp : pickBest (x :: cs) = some c := by
        simpa [pickBest, pickStep] using hc
      constructor
      · simp [hp]
      · intro d hd
        rw [hp, Option.some_inj] at hd
        subst hd
        constructor
        · rcases hmem with rfl | hmem
          · exact List.mem_cons_self _ _
          · exact List.mem_cons_of_mem _ hmem
        · intro c' hc'
          rcases List.mem_cons.mp hc' with rfl | hmem'
          · exact hpref
          · exact hall _ hmem'

end TemplateGrid

/-- C5: the Match Engine produces at most one Match: it emits nothing iff
every candidate scores below the minimum-similarity threshold (a normal
outcome), and an emitted winner is a candidate at or above the threshold
that no other surviving candidate beats — no survivor has a strictly
higher score, nor an equal score with higher `total_pnl`, nor an equal
score and `total_pnl` with a lower identifier. -/
theorem matchEngine_selection (minSim : ℚ) (cs : List TemplateGrid.Candidate) :
    (TemplateGrid.bestMatch minSim cs = none ↔ ∀ c ∈ cs, c.score < minSim) ∧
    ∀ c, TemplateGrid.bestMatch minSim cs = some c →
      c ∈ cs ∧ minSim ≤ c.score ∧
      ∀ c' ∈ cs, minSim ≤ c'.score → TemplateGrid.beats c' c = false := by
  obtain ⟨hnone, hsome⟩ :=
    TemplateGrid.pickBest_spec (TemplateGrid.survivors minSim cs)
  constructor
  · rw [TemplateGrid.bestMatch, hnone]
    simp [TemplateGrid.survivors, List.filter_eq_nil_iff, not_le]
  · intro c hc
    obtain ⟨hmem, hall⟩ := hsome c hc
    have hm := List.mem_filter.mp hmem
    refine ⟨hm.1, by simpa using hm.2, ?_⟩
    intro c' hc' hsc'
    have hmem' : c' ∈ TemplateGrid.survivors minSim cs :=
      List.mem_filter.mpr ⟨hc', by simpa⟩
    exact (TemplateGrid.beats_eq_false_iff c' c).mpr (hall c' hmem')

/-- Witness for C5: on three concrete candidates with threshold 65, the
engine selects the id-2 candidate with score 80, which survives the
threshold. -/
theorem matchEngine_selection_witness :
    TemplateGrid.bestMatch 65 [⟨1, 100, 70⟩, ⟨2, 200, 80⟩, ⟨3, 50, 60⟩] =
      some ⟨2, 200, 80⟩ ∧
    (⟨2, 200, 80⟩ : TemplateGrid.Candidate) ∈
      ([⟨1, 100, 70⟩, ⟨2, 200, 80⟩, ⟨3, 50, 60⟩] : List TemplateGrid.Candidate) ∧
    (65 : ℚ) ≤ (⟨2, 200, 80⟩ : TemplateGrid.Candidate).score :=
  have h := (matchEngine_selection 65
    [⟨1, 100, 70⟩, ⟨2, 200, 80⟩, ⟨3, 50, 60⟩]).2 ⟨2, 200, 80⟩ (by decide)
  ⟨by decide, h.1, h.2.1⟩

namespace TemplateGrid

/-! ## Lemmas about the Live Monitor's dispatch loop -/

lemma foldl_stepBar {μ ε : Type} (obs : List (μ → Except ε Unit))
    (ms : List μ) :
    ∀ s : MonitorState ε, ms.foldl (stepBar obs) s =
      ⟨s.dispatched ++ ms.map (dispatchOne obs),
       s.barsProcessed + ms.length⟩ := by
  induction ms with
  | nil => intro s; simp
  | cons m ms ih =>
      intro s
      have hstep : (m :: ms).foldl (stepBar obs) s
          = ms.foldl (stepBar obs) (stepBar obs s m) := rfl
      rw [hstep, ih]
      simp [stepBar]
      omega

end TemplateGrid

/-- C7: dispatching Matches to the registered observers is isolated per
callback: for every observer list (each callback may succeed or raise) and
every Match sequence, the Live Monitor's dispatch loop processes every
Match, and for each Match every registered observer is invoked in
registration order with its own isolated outcome — a raising observer
neither aborts the monitor nor prevents any other observer's invocation
for that Match or later ones. -/
theorem observer_isolation {μ ε : Type} (obs : List (μ → Except ε Unit))
    (ms : List μ) :
    (TemplateGrid.runMonitor obs ms).barsProcessed = ms.length ∧
    (TemplateGrid.runMonitor obs ms).dispatched =
      ms.map (fun m => obs.map (fun f => TemplateGrid.runIsolated f m)) := by
  have h := TemplateGrid.foldl_stepBar obs ms (⟨[], 0⟩ : TemplateGrid.MonitorState ε)
  rw [TemplateGrid.runMonitor, h]
  constructor
  · simp
  · simp [TemplateGrid.dispatchOne]

/-- C9: for every input (user input, exchange, symbol type) and whatever a
`searchSymbols` client method would have returned, the datafeed's
`searchSymbols` invokes `onResultReadyCallback` exactly once, with the
empty list: the `APIClient` class defines no `searchSymbols` method, so
the awaited call always throws and control always reaches the catch branch
that passes `[]`. -/
theorem searchSymbols_always_empty {α : Type}
    (api : String → String → String → List α)
    (userInput exchange symbolType : String) :
    Datafeed.searchSymbols api userInput exchange symbolType = [[]] := by
  rw [Datafeed.searchSymbols, if_neg (by decide)]

/-- C10: on a successful history response, `getBars` invokes exactly one
of its two callbacks: `onHistoryCallback([], noData)` when the status is
`no_data`, `onErrorCallback("Data fetch error")` when the status is
neither `no_data` nor `ok`, and otherwise `onHistoryCallback` with one bar
per index of the `t` array, in order, each bar's time being `t[i] * 1000`
and its other fields read from `o[i]/h[i]/l[i]/c[i]/v[i]`. -/
theorem getBars_outcomes (r : Datafeed.HistoryResponse)
    (ho : r.o.length = r.t.length) (hh : r.h.length = r.t.length)
    (hl : r.l.length = r.t.length) (hc : r.c.length = r.t.length)
    (hv : r.v.length = r.t.length) :
    (r.s = "no_data" → Datafeed.getBars r = .history [] true) ∧
    (r.s ≠ "no_data" → r.s ≠ "ok" →
      Datafeed.getBars r = .err "Data fetch error") ∧
    (r.s = "ok" →
      Datafeed.getBars r = .history (Datafeed.barsOf r) false ∧
      (Datafeed.barsOf r).length = r.t.length ∧
      ∀ i, i < r.t.length →
        (Datafeed.barsOf r).getD i default =
          { time := r.t.getD i 0 * 1000
            open_ := r.o.getD i 0
            high := r.h.getD i 0
            low := r.l.getD i 0
            close := r.c.getD i 0
            volume := r.v.getD i 0 }) := by
  refine ⟨?_, ?_, ?_⟩
  · intro h
    rw [Datafeed.getBars, if_pos h]
  · intro h1 h2
    rw [Datafeed.getBars, if_neg h1, if_pos h2]
  · intro h
    have h1 : ¬ r.s = "no_data" := by rw [h]; decide
    refine ⟨by rw [Datafeed.getBars, if_neg h1, if_neg (by simp [h])], ?_, ?_⟩
    · simp [Datafeed.barsOf]
    · intro i hi
      have : (Datafeed.barsOf r).getD i default
          = ((List.range r.t.length).map _).getD i default := rfl
      rw [Datafeed.barsOf, List.getD_eq_getElem?_getD, List.getElem?_map]
      simp [List.getElem?_range hi]

/-- Witness for C10: a concrete well-formed `ok` response with two entries
takes the history branch with the converted bars and `noData = false`. -/
theorem getBars_outcomes_witness :
    (Datafeed.HistoryResponse.mk "ok" [1, 2] [3, 4] [5, 6] [7, 8] [9, 10] [11, 12]).s
      = "ok" ∧
    Datafeed.getBars ⟨"ok", [1, 2], [3, 4], [5, 6], [7, 8], [9, 10], [11, 12]⟩ =
      Datafeed.GetBarsOutcome.history
        (Datafeed.barsOf ⟨"ok", [1, 2], [3, 4], [5, 6], [7, 8], [9, 10], [11, 12]⟩)
        false :=
  ⟨rfl,
   ((getBars_outcomes ⟨"ok", [1, 2], [3, 4], [5, 6], [7, 8], [9, 10], [11, 12]⟩
      rfl rfl rfl rfl rfl).2.2 rfl).1⟩

namespace TemplateGrid

/-! ## Lemmas about the Grid Encoder -/

lemma le_foldl_max (l : List ℚ) : ∀ a : ℚ, a ≤ l.foldl max a := by
  induction l with
  | nil => intro a; simp
  | cons x l ih =>
      intro a
      calc a ≤ max a x := le_max_left _ _
        _ ≤ l.foldl max (max a x) := ih _

lemma mem_le_foldl_max (l : List ℚ) : ∀ a : ℚ, ∀ x ∈ l, x ≤ l.foldl max a := by
  induction l with
  | nil => simp
  | cons y l ih =>
      intro a x hx
      rcases List.mem_cons.mp hx with rfl | hx
      · calc x ≤ max a x := le_max_right _ _
          _ ≤ l.foldl max (max a x) := le_foldl_max l _
      · exact ih (max a y) x hx

lemma foldl_min_le (l : List ℚ) : ∀ a : ℚ, l.foldl min a ≤ a := by
  induction l with
  | nil => intro a; simp
  | cons x l ih =>
      intro a
      calc l.foldl min (min a x) ≤ min a x := ih _
        _ ≤ a := min_le_left _ _

lemma foldl_min_le_mem (l : List ℚ) : ∀ a : ℚ, ∀ x ∈ l, l.foldl min a ≤ x := by
  induction l with
  | nil => simp
  | cons y l ih =>
      intro a x hx
      rcases List.mem_cons.mp hx with rfl | hx
      · calc l.foldl min (min a x) ≤ min a x := foldl_min_le l _
          _ ≤ x := min_le_right _ _
      · exact ih (min a y) x hx

lemma mem_le_listMax {w : List ℚ} {x : ℚ} (hx : x ∈ w) : x ≤ listMax w := by
  cases w with
  | nil => cases hx
  | cons a as =>
      rcases List.mem_cons.mp hx with rfl | hx
      · exact le_foldl_max as x
      · exact mem_le_foldl_max as a x hx

lemma listMin_le_mem {w : List ℚ} {x : ℚ} (hx : x ∈ w) : listMin w ≤ x := by
  cases w with
  | nil => cases hx
  | cons a as =>
      rcases List.mem_cons.mp hx with rfl | hx
      · exact foldl_min_le as x
      · exact foldl_min_le_mem as a x hx

lemma picRow_lt (m : ℕ) (hm : 0 < m) (lo hi p : ℚ)
    (hlo : lo ≤ p) (hhi : p ≤ hi) : picRow m lo hi p < m := by
  unfold picRow
  split_ifs with hflat
  · omega
  · have hlt : lo < hi := lt_of_le_of_ne (le_trans hlo hhi) (Ne.symm hflat)
    have hden : (0 : ℚ) < hi - lo := by linarith
    have hq0 : (0 : ℚ) ≤ (hi - p) / (hi - lo) :=
      div_nonneg (by linarith) (le_of_lt hden)
    have hq1 : (hi - p) / (hi - lo) ≤ 1 := by
      rw [div_le_one hden]; linarith
    have hx1 : ((hi - p) / (hi - lo)) * ((m - 1 : ℕ) : ℚ) ≤ ((m - 1 : ℕ) : ℚ) :=
      mul_le_of_le_one_left (Nat.cast_nonneg _) hq1
    have hfl : (((hi - p) / (hi - lo)) * ((m - 1 : ℕ) : ℚ)).floor ≤ ((m - 1 : ℕ) : ℤ) := by
      have := Int.floor_le_floor hx1
      rwa [Int.floor_natCast] at this
    have := Int.toNat_le.mpr hfl
    omega

end TemplateGrid

/-- C1: for every non-empty numeric window and positive grid row count
`m`, the Grid Encoder returns a PIC of the window's length whose every
entry lies in `[0, m)`; and when the window is flat (`max = min`), every
entry equals `⌊(m-1)/2⌋`. -/
theorem gridEncoder_pic_bounds (window : List ℚ) (m : ℕ)
    (hne : window ≠ []) (hm : 0 < m) :
    (TemplateGrid.pic window m).length = window.length ∧
    (∀ r ∈ TemplateGrid.pic window m, r < m) ∧
    (TemplateGrid.listMax window = TemplateGrid.listMin window →
      ∀ r ∈ TemplateGrid.pic window m, r = (m - 1) / 2) := by
  refine ⟨by simp [TemplateGrid.pic], ?_, ?_⟩
  · intro r hr
    obtain ⟨p, hp, rfl⟩ := List.mem_map.mp hr
    exact TemplateGrid.picRow_lt m hm _ _ p
      (TemplateGrid.listMin_le_mem hp) (TemplateGrid.mem_le_listMax hp)
  · intro hflat r hr
    obtain ⟨p, hp, rfl⟩ := List.mem_map.mp hr
    rw [TemplateGrid.picRow, if_pos hflat]

/-- Witness for C1: the window `[3, 1, 2]` with 5 grid rows has a PIC of
length 3 with every entry below 5; and the flat window `[7, 7]` maps both
positions to the middle row `2`. -/
theorem gridEncoder_pic_bounds_witness :
    (([3, 1, 2] : List ℚ) ≠ [] ∧ 0 < 5 ∧
      (TemplateGrid.pic [3, 1, 2] 5).length = 3 ∧
      ∀ r ∈ TemplateGrid.pic [3, 1, 2] 5, r < 5) ∧
    (TemplateGrid.listMax [7, 7] = TemplateGrid.listMin [7, 7] ∧
      ∀ r ∈ TemplateGrid.pic ([7, 7] : List ℚ) 5, r = 2) :=
  ⟨⟨by decide, by decide,
    (gridEncoder_pic_bounds [3, 1, 2] 5 (by decide) (by decide)).1,
    (gridEncoder_pic_bounds [3, 1, 2] 5 (by decide) (by decide)).2.1⟩,
   ⟨by decide,
    (gridEncoder_pic_bounds [7, 7] 5 (by decide) (by decide)).2.2 (by decide)⟩⟩

namespace TemplateGrid

/-! ## Lemmas about the Similarity Scorer -/

lemma dot_nil_right (v : List ℝ) : dot v [] = 0 := by
  cases v <;> simp [dot]

lemma dot_cons (a b : ℝ) (v w : List ℝ) :
    dot (a :: v) (b :: w) = a * b + dot v w := by
  simp [dot]

lemma dot_self_nonneg (v : List ℝ) : 0 ≤ dot v v := by
  induction v with
  | nil => simp [dot]
  | cons a v ih =>
      rw [dot_cons]
      nlinarith [mul_self_nonneg a]

lemma dot_sq_le (v : List ℝ) : ∀ w : List ℝ, (dot v w) ^ 2 ≤ dot v v * dot w w := by
  induction v with
  | nil => intro w; simp [dot]
  | cons a v ih =>
      intro w
      cases w with
      | nil => simp [dot_nil_right]
      | cons b w =>
          have h := ih w
          have hX := dot_self_nonneg v
          have hY := dot_self_nonneg w
          rw [dot_cons, dot_cons, dot_cons]
          by_cases hy0 : dot w w = 0
          · have hS : dot v w = 0 := by
              have h' := h
              rw [hy0, mul_zero] at h'
              have h0 := sq_nonneg (dot v w)
              have hsq : (dot v w) ^ 2 = 0 := le_antisymm h' h0
              exact pow_eq_zero_iff (two_ne_zero) |>.mp hsq
            rw [hS, hy0]
            nlinarith [mul_self_nonneg b, mul_nonneg hX (mul_self_nonneg b)]
          · have hy : 0 < dot w w := lt_of_le_of_ne hY (Ne.symm hy0)
            nlinarith [sq_nonneg (a * dot w w - b * dot v w),
                       mul_nonneg (add_nonneg (mul_self_nonneg b) hY)
                         (sub_nonneg.mpr h)]

lemma mag_nonneg (v : List ℝ) : 0 ≤ mag v := Real.sqrt_nonneg _

lemma abs_dot_le_mag_mul (v w : List ℝ) : |dot v w| ≤ mag v * mag w := by
  have h : Real.sqrt ((dot v w) ^ 2) ≤ Real.sqrt (dot v v * dot w w) :=
    Real.sqrt_le_sqrt (dot_sq_le v w)
  rw [Real.sqrt_sq_eq_abs] at h
  rw [mag, mag, ← Real.sqrt_mul (dot_self_nonneg v)]
  exact h

lemma dot_comm (v : List ℝ) : ∀ w : List ℝ, dot v w = dot w v := by
  induction v with
  | nil => intro w; rw [dot_nil_right w]; simp [dot]
  | cons a v ih =>
      intro w
      cases w with
      | nil => rw [dot_nil_right]; simp [dot]
      | cons b w => rw [dot_cons, dot_cons, ih, mul_comm]

lemma dot_map_left (c : ℝ) (v : List ℝ) :
    ∀ w : List ℝ, dot (v.map (fun x => c * x)) w = c * dot v w := by
  induction v with
  | nil => intro w; simp [dot]
  | cons a v ih =>
      intro w
      cases w with
      | nil => simp [dot_nil_right]
      | cons b w =>
          simp only [List.map_cons, dot_cons, ih]
          ring

lemma mag_map (c : ℝ) (hc : 0 ≤ c) (v : List ℝ) :
    mag (v.map (fun x => c * x)) = c * mag v := by
  have h1 : dot (v.map (fun x => c * x)) (v.map (fun x => c * x))
      = c * c * dot v v := by
    rw [dot_map_left, dot_comm, dot_map_left, dot_comm, ← mul_assoc]
  rw [mag, mag, h1, Real.sqrt_mul (mul_nonneg hc hc), Real.sqrt_mul_self hc]

end TemplateGrid

/-- C2: for every pair of equal-length flattened vectors, the Similarity
Scorer's `(cosine + 1) * 50` score lies in `[0, 100]`, and when either
vector has zero magnitude the returned similarity is exactly `0`. -/
theorem similarity_bounds (v w : List ℝ) (hlen : v.length = w.length) :
    0 ≤ TemplateGrid.similarity v w ∧
    TemplateGrid.similarity v w ≤ 100 ∧
    ((TemplateGrid.mag v = 0 ∨ TemplateGrid.mag w = 0) →
      TemplateGrid.similarity v w = 0) := by
  unfold TemplateGrid.similarity
  split_ifs with h
  · exact ⟨le_refl 0, by norm_num, fun _ => rfl⟩
  · push_neg at h
    have hv : 0 < TemplateGrid.mag v :=
      lt_of_le_of_ne (TemplateGrid.mag_nonneg v) (Ne.symm h.1)
    have hw : 0 < TemplateGrid.mag w :=
      lt_of_le_of_ne (TemplateGrid.mag_nonneg w) (Ne.symm h.2)
    have hmm : 0 < TemplateGrid.mag v * TemplateGrid.mag w := mul_pos hv hw
    have habs := TemplateGrid.abs_dot_le_mag_mul v w
    rw [abs_le] at habs
    have h1 : TemplateGrid.dot v w / (TemplateGrid.mag v * TemplateGrid.mag w) ≤ 1 :=
      (div_le_one hmm).mpr habs.2
    have h2 : -1 ≤ TemplateGrid.dot v w / (TemplateGrid.mag v * TemplateGrid.mag w) := by
      rw [le_div_iff₀ hmm]
      linarith [habs.1]
    refine ⟨by nlinarith, by nlinarith, fun hc => absurd hc ?_⟩
    exact not_or.mpr ⟨h.1, h.2⟩

/-- Witness for C2: the vectors `[0]` and `[1]` have equal length, the
first has zero magnitude, and the similarity is `0`, inside `[0, 100]`. -/
theorem similarity_bounds_witness :
    ([(0 : ℝ)].length = [(1 : ℝ)].length) ∧
    0 ≤ TemplateGrid.similarity [(0 : ℝ)] [(1 : ℝ)] ∧
    TemplateGrid.similarity [(0 : ℝ)] [(1 : ℝ)] ≤ 100 ∧
    TemplateGrid.similarity [(0 : ℝ)] [(1 : ℝ)] = 0 := by
  have h := similarity_bounds [(0 : ℝ)] [(1 : ℝ)] rfl
  have hm : TemplateGrid.mag [(0 : ℝ)] = 0 := by
    have hd : TemplateGrid.dot [(0 : ℝ)] [(0 : ℝ)] = 0 := by
      simp [TemplateGrid.dot]
    rw [TemplateGrid.mag, hd, Real.sqrt_zero]
  exact ⟨rfl, h.1, h.2.1, h.2.2 (Or.inl hm)⟩

/-- C8: scaling an indicator vector by a positive constant does not change
the similarity score. -/
theorem similarity_scaling (v w : List ℝ) (c : ℝ) (hc : 0 < c) :
    TemplateGrid.similarity (v.map (fun x => c * x)) w =
      TemplateGrid.similarity v w := by
  unfold TemplateGrid.similarity
  rw [TemplateGrid.mag_map c hc.le, TemplateGrid.dot_map_left]
  by_cases h : TemplateGrid.mag v = 0 ∨ TemplateGrid.mag w = 0
  · have h' : c * TemplateGrid.mag v = 0 ∨ TemplateGrid.mag w = 0 :=
      h.imp (fun h0 => by rw [h0, mul_zero]) id
    rw [if_pos h', if_pos h]
  · have h' : ¬(c * TemplateGrid.mag v = 0 ∨ TemplateGrid.mag w = 0) := by
      push_neg at h ⊢
      exact ⟨mul_ne_zero (ne_of_gt hc) h.1, h.2⟩
    rw [if_neg h', if_neg h]
    have hd : c * TemplateGrid.dot v w /
        (c * TemplateGrid.mag v * TemplateGrid.mag w) =
        TemplateGrid.dot v w / (TemplateGrid.mag v * TemplateGrid.mag w) := by
      rw [mul_assoc, mul_div_mul_left _ _ (ne_of_gt hc)]
    rw [hd]

/-- Witness for C8: scaling `[1]` by the positive constant `2` leaves its
similarity against `[1]` unchanged. -/
theorem similarity_scaling_witness :
    (0 : ℝ) < 2 ∧
    TemplateGrid.similarity (([1] : List ℝ).map (fun x => 2 * x)) [1] =
      TemplateGrid.similarity [1] [1] :=
  ⟨by norm_num, similarity_scaling [1] [1] 2 (by norm_num)⟩
